import Mathlib

/-!
Shallow embedding of the appointment booking and conflict-resolution core of
the HealthMate repository (shared/schema.ts, server/storage.ts alias
DatabaseStorage, server/routes.ts).

Timestamps are modelled as integers (instants).  The relational store is a
record of lists; the serial primary key of each table is modelled by a
next-id counter.  A store-level transaction that rolls back is modelled by
an operation returning the unchanged store together with its error value.

The PostgreSQL unique index `unique_booking_idx` is declared in
shared/schema.ts as `uniqueIndex("unique_booking_idx").on(t.doctorId,
t.startTime)` and created in tests/helpers/test-db.ts as
`CREATE UNIQUE INDEX unique_booking_idx ON appointments (doctor_id,
start_time)`: it is unconditional, it does not restrict to rows whose
status is `confirmed`.  The embedding reproduces that.
-/

/-- Appointment.status: `text("status", { enum: ["confirmed", "cancelled",
"completed"] })` in shared/schema.ts. -/
inductive Status where
  | confirmed
  | cancelled
  | completed
deriving DecidableEq

/-- Row of the `availabilities` table (schema in README.md / shared
schema): id, doctorId, startTime, endTime, isBooked (default false). -/
structure Availability where
  id : Nat
  doctorId : Nat
  startTime : Int
  endTime : Int
  isBooked : Bool
deriving DecidableEq

/-- Row of the `appointments` table in shared/schema.ts. -/
structure Appointment where
  id : Nat
  patientId : Nat
  doctorId : Nat
  startTime : Int
  endTime : Int
  status : Status
  notes : Option String
deriving DecidableEq

/-- `insertAppointmentSchema = createInsertSchema(appointments, ...)
.omit({ id: true, status: true })`: the insert payload carries no id and no
status (status defaults to `confirmed`), and places no ordering constraint
on startTime/endTime (the zod schema only coerces both to dates). -/
structure InsertAppointment where
  patientId : Nat
  doctorId : Nat
  startTime : Int
  endTime : Int
  notes : Option String
deriving DecidableEq

/-- `insertAvailabilitySchema ... .omit({ id: true, isBooked: true })`. -/
structure InsertAvailability where
  doctorId : Nat
  startTime : Int
  endTime : Int
deriving DecidableEq

/-- The two relational collections relevant to the booking core, plus the
serial-id counters of their primary keys. -/
structure DB where
  availabilities : List Availability
  appointments : List Appointment
  nextAvailId : Nat
  nextApptId : Nat
deriving DecidableEq

/-- The empty store. -/
def initDB : DB := { availabilities := [], appointments := [], nextAvailId := 0, nextApptId := 0 }

/-- Core error taxonomy (spec section 7); in the source these surface as the
thrown "Doctor is not available at this time" error, the PostgreSQL 23505
unique-violation, the undefined return of a missing row, and the 403 role
checks of server/routes.ts. -/
inductive BookingError where
  | NotAvailable
  | SlotConflict
  | NotFound
  | Forbidden
deriving DecidableEq

instance (ε α : Type) [DecidableEq ε] [DecidableEq α] : DecidableEq (Except ε α) :=
  fun x y =>
    match x, y with
    | .ok a, .ok b =>
      if h : a = b then isTrue (by rw [h]) else isFalse (by simp [h])
    | .error a, .error b =>
      if h : a = b then isTrue (by rw [h]) else isFalse (by simp [h])
    | .ok _, .error _ => isFalse (by simp)
    | .error _, .ok _ => isFalse (by simp)

/-- server/routes.ts error mapping: "Doctor is not available" misses map to
400, error code 23505 maps to 409, a missing appointment maps to 404, and
the role/ownership checks reply with 403. -/
def httpStatusOf : BookingError → Nat
  | .NotAvailable => 400
  | .SlotConflict => 409
  | .NotFound => 404
  | .Forbidden => 403

/-- The availability query of DatabaseStorage.createAppointment /
rescheduleAppointment: select from availabilities where doctorId matches,
`lte(availabilities.startTime, startTime)` and
`gte(availabilities.endTime, endTime)`; true iff the result is nonempty. -/
def hasContainingBlock (db : DB) (doctorId : Nat) (startTime endTime : Int) : Bool :=
  db.availabilities.any (fun b =>
    b.doctorId == doctorId && b.startTime ≤ startTime && endTime ≤ b.endTime)

/-- The `unique_booking_idx` check: an insert of (doctorId, startTime)
violates the index iff some existing row of `appointments` — of any
status — already has that doctorId and startTime. -/
def violatesUniqueBooking (db : DB) (doctorId : Nat) (startTime : Int) : Bool :=
  db.appointments.any (fun a => a.doctorId == doctorId && a.startTime == startTime)

/-- DatabaseStorage.createAvailability: plain insert returning the new
row. -/
def createAvailability (db : DB) (v : InsertAvailability) : Availability × DB :=
  let row : Availability :=
    { id := db.nextAvailId, doctorId := v.doctorId, startTime := v.startTime,
      endTime := v.endTime, isBooked := false }
  (row, { db with availabilities := db.availabilities ++ [row],
                  nextAvailId := db.nextAvailId + 1 })

/-- DatabaseStorage.createAppointment: inside one transaction, query the
availability blocks containing the requested interval; if none, throw
"Doctor is not available at this time" (modelled as NotAvailable); else
insert the row, the insert failing with a 23505 unique violation (modelled
as SlotConflict) when `unique_booking_idx` is hit at commit.  On any error
the transaction rolls back, so the store is returned unchanged. -/
def newApptRow (db : DB) (r : InsertAppointment) : Appointment :=
  { id := db.nextApptId, patientId := r.patientId, doctorId := r.doctorId,
    startTime := r.startTime, endTime := r.endTime,
    status := .confirmed, notes := r.notes }

def createAppointment (db : DB) (r : InsertAppointment) :
    Except BookingError Appointment × DB :=
  if hasContainingBlock db r.doctorId r.startTime r.endTime = false then
    (.error .NotAvailable, db)
  else if violatesUniqueBooking db r.doctorId r.startTime then
    (.error .SlotConflict, db)
  else
    (.ok (newApptRow db r),
     { db with appointments := newApptRow db r :: db.appointments,
               nextApptId := db.nextApptId + 1 })

/-- The row transformation of an SQL `UPDATE ... WHERE id = id`: rows with
a matching id are replaced by `upd`, others are untouched. -/
def updateRow (id : Nat) (upd : Appointment) (a : Appointment) : Appointment :=
  if a.id == id then upd else a

/-- DatabaseStorage.updateAppointmentStatus: `update appointments set
status where id = id returning`; yields the updated row, or none when no
row has that id.  The row's other columns are untouched. -/
def updateAppointmentStatus (db : DB) (id : Nat) (st : Status) :
    Option Appointment × DB :=
  match db.appointments.find? (fun a => a.id == id) with
  | none => (none, db)
  | some a =>
    (some { a with status := st },
     { db with appointments :=
        db.appointments.map (updateRow id { a with status := st }) })

/-- The in-place mutation performed by rescheduleAppointment: new
startTime/endTime, status reset to "confirmed", all other columns kept. -/
def reschedRow (appt : Appointment) (startTime endTime : Int) : Appointment :=
  { appt with startTime := startTime, endTime := endTime, status := .confirmed }

/-- DatabaseStorage.rescheduleAppointment: inside one transaction, load
the appointment (absent: return undefined, modelled NotFound); re-run the
availability containment query for the new interval (none: throw, modelled
NotAvailable); then update startTime/endTime and set status to
"confirmed" in place, the update failing with 23505 (SlotConflict) when
another row of the same doctor already holds the new startTime.  Errors
roll the transaction back. -/
def rescheduleAppointment (db : DB) (id : Nat) (startTime endTime : Int) :
    Except BookingError Appointment × DB :=
  match db.appointments.find? (fun a => a.id == id) with
  | none => (.error .NotFound, db)
  | some appt =>
    if hasContainingBlock db appt.doctorId startTime endTime = false then
      (.error .NotAvailable, db)
    else if db.appointments.any (fun a =>
        a.id != id && a.doctorId == appt.doctorId && a.startTime == startTime) then
      (.error .SlotConflict, db)
    else
      (.ok (reschedRow appt startTime endTime),
       { db with appointments :=
          db.appointments.map (updateRow id (reschedRow appt startTime endTime)) })

/-- DatabaseStorage.getAvailability: blocks of the doctor whose endTime is
at least the (midnight-truncated) current instant, for which no row of
`appointments` with the block's doctor and the block's exact startTime has
status "confirmed".  The clock value is passed explicitly. -/
def getAvailability (db : DB) (doctorId : Nat) (now : Int) : List Availability :=
  db.availabilities.filter (fun b =>
    b.doctorId == doctorId && now ≤ b.endTime &&
    !(db.appointments.any (fun a =>
        a.doctorId == b.doctorId && a.startTime == b.startTime &&
        a.status == Status.confirmed)))

/-- `role: text("role", { enum: ["patient", "doctor"] })`. -/
inductive Role where
  | patient
  | doctor
deriving DecidableEq

/-- The authenticated caller as seen by the route handlers (req.user). -/
structure Actor where
  id : Nat
  role : Role
deriving DecidableEq

/-- Body of POST /api/appointments after schema validation:
`insertAppointmentSchema.omit({ patientId: true, status: true })` —
patientId is taken from the token. -/
structure CreateInput where
  doctorId : Nat
  startTime : Int
  endTime : Int
  notes : Option String
deriving DecidableEq

/-- POST /api/appointments handler (server/routes.ts): reject non-patient
callers with 403 (Forbidden); otherwise call createAppointment with
patientId from the token. -/
def createRoute (db : DB) (actor : Actor) (r : CreateInput) :
    Except BookingError Appointment × DB :=
  if actor.role ≠ Role.patient then (.error .Forbidden, db)
  else createAppointment db
    { patientId := actor.id, doctorId := r.doctorId, startTime := r.startTime,
      endTime := r.endTime, notes := r.notes }

/-- PATCH /api/appointments/:id/cancel handler: load the appointment (404
when absent), check that the caller is its patient or its doctor (403
otherwise), then set the status to "cancelled". -/
def cancelRoute (db : DB) (actor : Actor) (id : Nat) :
    Except BookingError Appointment × DB :=
  match db.appointments.find? (fun a => a.id == id) with
  | none => (.error .NotFound, db)
  | some appt =>
    if appt.patientId ≠ actor.id ∧ appt.doctorId ≠ actor.id then
      (.error .Forbidden, db)
    else
      match updateAppointmentStatus db id .cancelled with
      | (none, _) => (.error .NotFound, db)
      | (some a, db') => (.ok a, db')

/-- PATCH /api/appointments/:id/reschedule handler: reject callers whose
role is not patient with 403; otherwise call rescheduleAppointment.  The
handler performs no ownership check. -/
def rescheduleRoute (db : DB) (actor : Actor) (id : Nat) (startTime endTime : Int) :
    Except BookingError Appointment × DB :=
  if actor.role ≠ Role.patient then (.error .Forbidden, db)
  else rescheduleAppointment db id startTime endTime


/-!
Invariants of the appointment store and reachability.
-/

/-- The `unique_booking_idx` invariant on rows: any two rows with distinct
ids and the same doctor have distinct start times (regardless of status,
since the index is unconditional). -/
def SlotsOk (l : List Appointment) : Prop :=
  ∀ a ∈ l, ∀ b ∈ l, a.id ≠ b.id → a.doctorId = b.doctorId → a.startTime ≠ b.startTime

/-- The serial primary key: a row is determined by its id. -/
def IdsInj (l : List Appointment) : Prop :=
  ∀ a ∈ l, ∀ b ∈ l, a.id = b.id → a = b

/-- Every stored id is below the serial counter. -/
def IdsBelow (l : List Appointment) (n : Nat) : Prop :=
  ∀ a ∈ l, a.id < n

/-- The combined store invariant. -/
def StoreInv (db : DB) : Prop :=
  SlotsOk db.appointments ∧ IdsInj db.appointments ∧
    IdsBelow db.appointments db.nextApptId

/-- States reachable from the empty store through the booking core's
mutating operations. -/
inductive Reachable : DB → Prop where
  | init : Reachable initDB
  | addAvailability (v : InsertAvailability) {db : DB} :
      Reachable db → Reachable (createAvailability db v).2
  | create (r : InsertAppointment) {db : DB} :
      Reachable db → Reachable (createAppointment db r).2
  | setStatus (id : Nat) (st : Status) {db : DB} :
      Reachable db → Reachable (updateAppointmentStatus db id st).2
  | reschedule (id : Nat) (s e : Int) {db : DB} :
      Reachable db → Reachable (rescheduleAppointment db id s e).2

/-- Whether a booking attempt succeeded. -/
def isOk (x : Except BookingError Appointment) : Bool :=
  match x with
  | .ok _ => true
  | .error _ => false

/-- Concrete store: doctor 1 declared one availability block [900, 1700]. -/
def dbBlock : DB :=
  (createAvailability initDB { doctorId := 1, startTime := 900, endTime := 1700 }).2

/-- Concrete store: dbBlock after patient 2 booked doctor 1 at
[1000, 1100]; the appointment got serial id 0 and status confirmed. -/
def dbBooked : DB :=
  (createAppointment dbBlock
    { patientId := 2, doctorId := 1, startTime := 1000, endTime := 1100,
      notes := none }).2

/-- Concrete store: dbBooked after appointment 0 was cancelled (its row
remains, with status cancelled). -/
def dbCancelled : DB :=
  (updateAppointmentStatus dbBooked 0 Status.cancelled).2

theorem storeInv_initDB : StoreInv initDB := by
  refine ⟨?_, ?_, ?_⟩ <;> intro a ha <;> simp [initDB] at ha

theorem storeInv_createAvailability (db : DB) (v : InsertAvailability)
    (h : StoreInv db) : StoreInv (createAvailability db v).2 := h

theorem storeInv_createAppointment (db : DB) (r : InsertAppointment)
    (h : StoreInv db) : StoreInv (createAppointment db r).2 := by
  obtain ⟨hs, hinj, hlt⟩ := h
  unfold createAppointment
  split
  · exact ⟨hs, hinj, hlt⟩
  split
  · exact ⟨hs, hinj, hlt⟩
  next hviol =>
    simp only [violatesUniqueBooking, List.any_eq_true, Bool.and_eq_true, beq_iff_eq,
      not_exists, not_and] at hviol
    refine ⟨?_, ?_, ?_⟩
    · intro a ha b hb hne hdoc
      rcases List.mem_cons.mp ha with rfl | ha <;> rcases List.mem_cons.mp hb with rfl | hb
      · exact absurd rfl hne
      · exact fun hst => hviol b hb hdoc.symm hst.symm
      · exact fun hst => hviol a ha hdoc hst
      · exact hs a ha b hb hne hdoc
    · intro a ha b hb hid
      rcases List.mem_cons.mp ha with rfl | ha <;> rcases List.mem_cons.mp hb with rfl | hb
      · rfl
      · exact absurd hid.symm (Nat.ne_of_lt (hlt b hb))
      · exact absurd hid (Nat.ne_of_lt (hlt a ha))
      · exact hinj a ha b hb hid
    · intro a ha
      rcases List.mem_cons.mp ha with rfl | ha
      · exact Nat.lt_succ_self _
      · exact Nat.lt_succ_of_lt (hlt a ha)

theorem updateRow_id (id : Nat) (upd : Appointment) (hupd : upd.id = id)
    (a : Appointment) : (updateRow id upd a).id = a.id := by
  unfold updateRow
  split
  next hc => exact hupd.trans (eq_of_beq hc).symm
  · rfl

/-- An UPDATE over the single row of a given id preserves the store
invariant provided the updated row does not collide with any other row on
(doctorId, startTime). -/
theorem storeInv_map_updateRow (db : DB) (id : Nat) (upd : Appointment)
    (hupd : upd.id = id)
    (hnew : ∀ b ∈ db.appointments, b.id ≠ id →
      upd.doctorId = b.doctorId → upd.startTime ≠ b.startTime)
    (h : StoreInv db) :
    StoreInv { db with appointments := db.appointments.map (updateRow id upd) } := by
  obtain ⟨hs, hinj, hlt⟩ := h
  refine ⟨?_, ?_, ?_⟩
  · intro x hx y hy hne hdoc
    obtain ⟨a, ha, rfl⟩ := List.mem_map.mp hx
    obtain ⟨b, hb, rfl⟩ := List.mem_map.mp hy
    rw [updateRow_id id upd hupd a, updateRow_id id upd hupd b] at hne
    unfold updateRow at hdoc ⊢
    by_cases hca : (a.id == id) = true <;> by_cases hcb : (b.id == id) = true <;>
      simp only [hca, hcb, if_true, if_false, if_pos, if_neg] at hdoc ⊢
    · exact absurd ((eq_of_beq hca).trans (eq_of_beq hcb).symm) hne
    · exact hnew b hb (fun hbid => hcb (beq_iff_eq.mpr hbid)) hdoc
    · exact fun hst =>
        hnew a ha (fun haid => hca (beq_iff_eq.mpr haid)) hdoc.symm hst.symm
    · exact hs a ha b hb hne hdoc
  · intro x hx y hy hid
    obtain ⟨a, ha, rfl⟩ := List.mem_map.mp hx
    obtain ⟨b, hb, rfl⟩ := List.mem_map.mp hy
    rw [updateRow_id id upd hupd a, updateRow_id id upd hupd b] at hid
    rw [hinj a ha b hb hid]
  · intro x hx
    obtain ⟨a, ha, rfl⟩ := List.mem_map.mp hx
    rw [updateRow_id id upd hupd a]
    exact hlt a ha

theorem storeInv_updateAppointmentStatus (db : DB) (id : Nat) (st : Status)
    (h : StoreInv db) : StoreInv (updateAppointmentStatus db id st).2 := by
  unfold updateAppointmentStatus
  rcases hfind : db.appointments.find? (fun a => a.id == id) with _ | appt <;>
    simp only [hfind]
  · exact h
  have happt : appt.id = id := by simpa using List.find?_some hfind
  have hmem : appt ∈ db.appointments := List.mem_of_find?_eq_some hfind
  refine storeInv_map_updateRow db id { appt with status := st } happt ?_ h
  intro b hb hbid hdoc hst
  exact h.1 appt hmem b hb (fun hi => hbid (hi ▸ happt)) hdoc hst

theorem storeInv_rescheduleAppointment (db : DB) (id : Nat) (s e : Int)
    (h : StoreInv db) : StoreInv (rescheduleAppointment db id s e).2 := by
  unfold rescheduleAppointment
  rcases hfind : db.appointments.find? (fun a => a.id == id) with _ | appt <;>
    simp only [hfind]
  · exact h
  have happt : appt.id = id := by simpa using List.find?_some hfind
  split
  · exact h
  split
  next hconf =>
    exact h
  next hconf =>
    refine storeInv_map_updateRow db id (reschedRow appt s e) happt ?_ h
    intro b hb hbid hdoc hst
    apply hconf
    refine List.any_eq_true.mpr ⟨b, hb, ?_⟩
    simp only [Bool.and_eq_true, bne_iff_ne, beq_iff_eq]
    exact ⟨⟨hbid, hdoc.symm⟩, hst.symm⟩

/-- Every reachable store satisfies the combined invariant. -/
theorem storeInv_of_reachable {db : DB} (h : Reachable db) : StoreInv db := by
  induction h with
  | init => exact storeInv_initDB
  | addAvailability v _ ih => exact storeInv_createAvailability _ v ih
  | create r _ ih => exact storeInv_createAppointment _ r ih
  | setStatus id st _ ih => exact storeInv_updateAppointmentStatus _ id st ih
  | reschedule id s e _ ih => exact storeInv_rescheduleAppointment _ id s e ih

/-!
General facts about the operations, shared by several results below.
-/

theorem createAppointment_availabilities (db : DB) (r : InsertAppointment) :
    (createAppointment db r).2.availabilities = db.availabilities := by
  unfold createAppointment
  split
  · rfl
  split <;> rfl

theorem rescheduleAppointment_availabilities (db : DB) (id : Nat) (s e : Int) :
    (rescheduleAppointment db id s e).2.availabilities = db.availabilities := by
  unfold rescheduleAppointment
  rcases hfind : db.appointments.find? (fun a => a.id == id) with _ | appt <;>
    simp only [hfind]
  split
  · rfl
  split <;> rfl

theorem hasContainingBlock_create (db : DB) (r : InsertAppointment)
    (d : Nat) (s e : Int) :
    hasContainingBlock (createAppointment db r).2 d s e = hasContainingBlock db d s e := by
  unfold hasContainingBlock
  rw [createAppointment_availabilities]

theorem hasContainingBlock_iff (db : DB) (d : Nat) (s e : Int) :
    hasContainingBlock db d s e = true ↔
      ∃ blk ∈ db.availabilities, blk.doctorId = d ∧ blk.startTime ≤ s ∧ e ≤ blk.endTime := by
  simp [hasContainingBlock, List.any_eq_true, and_assoc]

theorem createAppointment_ok (db : DB) (r : InsertAppointment)
    (h1 : hasContainingBlock db r.doctorId r.startTime r.endTime = true)
    (h2 : violatesUniqueBooking db r.doctorId r.startTime = false) :
    createAppointment db r =
      (Except.ok (newApptRow db r),
       { db with appointments := newApptRow db r :: db.appointments,
                 nextApptId := db.nextApptId + 1 }) := by
  simp [createAppointment, h1, h2]

theorem createAppointment_conflict (db : DB) (r : InsertAppointment)
    (h1 : hasContainingBlock db r.doctorId r.startTime r.endTime = true)
    (h2 : violatesUniqueBooking db r.doctorId r.startTime = true) :
    createAppointment db r = (Except.error BookingError.SlotConflict, db) := by
  simp [createAppointment, h1, h2]

/-!
Claim theorems.
-/

/-- C1: in every reachable state of the appointment store, any two
distinct appointments with status confirmed belonging to the same doctor
have different startTime values; the reachability induction shows each
operation (createAppointment, rescheduleAppointment, cancel via
updateAppointmentStatus) preserves the invariant enforced by the
(doctorId, startTime) uniqueness constraint. -/
theorem noDoubleBooking_of_reachable (db : DB) (h : Reachable db) :
    ∀ a ∈ db.appointments, ∀ b ∈ db.appointments,
      a.status = Status.confirmed → b.status = Status.confirmed →
      a ≠ b → a.doctorId = b.doctorId → a.startTime ≠ b.startTime := by
  intro a ha b hb _ _ hne hdoc
  obtain ⟨hs, hinj, _⟩ := storeInv_of_reachable h
  exact hs a ha b hb (fun hid => hne (hinj a ha b hb hid)) hdoc

/-- Witness for C1: the reachable store holding two confirmed bookings of
doctor 1 (ids 0 and 1), instantiated at those two concrete rows. -/
theorem noDoubleBooking_witness :
    { id := 1, patientId := 3, doctorId := 1, startTime := 1400, endTime := 1500,
      status := Status.confirmed, notes := none : Appointment }.startTime ≠
    { id := 0, patientId := 2, doctorId := 1, startTime := 1000, endTime := 1100,
      status := Status.confirmed, notes := none : Appointment }.startTime :=
  noDoubleBooking_of_reachable
    (createAppointment dbBooked
      { patientId := 3, doctorId := 1, startTime := 1400, endTime := 1500,
        notes := none }).2
    (Reachable.create _
      (Reachable.create _ (Reachable.addAvailability _ Reachable.init)))
    { id := 1, patientId := 3, doctorId := 1, startTime := 1400, endTime := 1500,
      status := Status.confirmed, notes := none } (by decide)
    { id := 0, patientId := 2, doctorId := 1, startTime := 1000, endTime := 1100,
      status := Status.confirmed, notes := none } (by decide)
    (by decide) (by decide) (by decide) (by decide)

/-- C2 (evidence of the code bug): appointment 0 of doctor 1 at
[1000, 1100] is cancelled (its row stays with status cancelled), the block
[900, 1700] still contains the interval, and yet re-booking doctor 1 at
startTime 1000 fails with SlotConflict, because `unique_booking_idx` is
not restricted to confirmed rows.  The spec requires this createAppointment
to succeed. -/
theorem cancelDoesNotFreeSlot :
    (updateAppointmentStatus dbBooked 0 Status.cancelled).1 =
      some { id := 0, patientId := 2, doctorId := 1, startTime := 1000,
             endTime := 1100, status := Status.cancelled, notes := none } ∧
    hasContainingBlock dbCancelled 1 1000 1100 = true ∧
    createAppointment dbCancelled
        { patientId := 3, doctorId := 1, startTime := 1000, endTime := 1100,
          notes := none } =
      (Except.error BookingError.SlotConflict, dbCancelled) := by
  decide

/-- C4 counterexample: in dbCancelled, appointment 0 has the (terminal,
per the claim) status cancelled, yet rescheduleAppointment moves it back
to status confirmed with new times — so a cancelled appointment does
change status again. -/
theorem statusNotTerminal_counterexample :
    dbCancelled.appointments.find? (fun a => a.id == 0) =
      some { id := 0, patientId := 2, doctorId := 1, startTime := 1000,
             endTime := 1100, status := Status.cancelled, notes := none } ∧
    (rescheduleAppointment dbCancelled 0 1400 1500).1 =
      Except.ok { id := 0, patientId := 2, doctorId := 1, startTime := 1400,
                  endTime := 1500, status := Status.confirmed, notes := none } := by
  decide

/-- C4 amended: reschedule unconditionally resets the appointment's status
to confirmed and cancel unconditionally sets it to cancelled, whatever the
previous status was; cancelled and completed are not terminal, since
rescheduleAppointment moves any found appointment back to confirmed. -/
theorem statusTransitions_amended (db : DB) (actor : Actor) (id : Nat) (s e : Int) :
    (∀ a, (rescheduleAppointment db id s e).1 = Except.ok a →
      a.status = Status.confirmed) ∧
    (∀ a, (cancelRoute db actor id).1 = Except.ok a →
      a.status = Status.cancelled) := by
  constructor
  · intro a hok
    unfold rescheduleAppointment at hok
    rcases hfind : db.appointments.find? (fun x => x.id == id) with _ | appt <;>
      simp only [hfind] at hok
    · exact absurd hok (by simp)
    split at hok
    · exact absurd hok (by simp)
    split at hok
    · exact absurd hok (by simp)
    · simp only [Except.ok.injEq] at hok
      rw [← hok]
      rfl
  · intro a hok
    unfold cancelRoute at hok
    rcases hfind : db.appointments.find? (fun x => x.id == id) with _ | appt <;>
      simp only [hfind] at hok
    · exact absurd hok (by simp)
    split at hok
    · exact absurd hok (by simp)
    unfold updateAppointmentStatus at hok
    simp only [hfind, Except.ok.injEq] at hok
    rw [← hok]

/-- Witness for C4 amended at the concrete store dbCancelled. -/
theorem statusTransitions_amended_witness :
    { id := 0, patientId := 2, doctorId := 1, startTime := 1400, endTime := 1500,
      status := Status.confirmed, notes := none : Appointment }.status =
      Status.confirmed :=
  (statusTransitions_amended dbCancelled { id := 2, role := Role.patient } 0 1400 1500).1
    _ (by decide)

/-- C10: neither the booking engine nor the insert schema enforces
startTime < endTime: for the concrete request [1200, 1000] (endTime before
startTime), which still satisfies the containment query against the block
[900, 1700], createAppointment succeeds and stores a row with
endTime <= startTime. -/
theorem degenerateIntervalAccepted :
    ((1000 : Int) ≤ 1200 ∧
      hasContainingBlock dbBlock 1 1200 1000 = true) ∧
    createAppointment dbBlock
        { patientId := 2, doctorId := 1, startTime := 1200, endTime := 1000,
          notes := none } =
      (Except.ok { id := 0, patientId := 2, doctorId := 1, startTime := 1200,
                   endTime := 1000, status := Status.confirmed, notes := none },
       { availabilities := [{ id := 0, doctorId := 1, startTime := 900,
                              endTime := 1700, isBooked := false }],
         appointments := [{ id := 0, patientId := 2, doctorId := 1,
                            startTime := 1200, endTime := 1000,
                            status := Status.confirmed, notes := none }],
         nextAvailId := 1, nextApptId := 1 }) ∧
    (1000 : Int) ≤ 1200 := by
  decide

/-- C3: a successful createAppointment (and likewise a successful
rescheduleAppointment) implies an availability block of the same doctor
contains the appointment's interval; and when no containing block exists,
the operation fails with NotAvailable and leaves the store unchanged. -/
theorem containmentInvariant (db : DB) (r : InsertAppointment) (id : Nat) (s e : Int) :
    (∀ a, (createAppointment db r).1 = Except.ok a →
      ∃ blk ∈ (createAppointment db r).2.availabilities,
        blk.doctorId = a.doctorId ∧ blk.startTime ≤ a.startTime ∧
          a.endTime ≤ blk.endTime) ∧
    (∀ a, (rescheduleAppointment db id s e).1 = Except.ok a →
      ∃ blk ∈ (rescheduleAppointment db id s e).2.availabilities,
        blk.doctorId = a.doctorId ∧ blk.startTime ≤ a.startTime ∧
          a.endTime ≤ blk.endTime) ∧
    (hasContainingBlock db r.doctorId r.startTime r.endTime = false →
      createAppointment db r = (Except.error BookingError.NotAvailable, db)) ∧
    (∀ appt, db.appointments.find? (fun x => x.id == id) = some appt →
      hasContainingBlock db appt.doctorId s e = false →
      rescheduleAppointment db id s e = (Except.error BookingError.NotAvailable, db)) := by
  refine ⟨?_, ?_, ?_, ?_⟩
  · intro a hok
    unfold createAppointment at hok
    split at hok
    · exact absurd hok (by simp)
    next hbool =>
    split at hok
    · exact absurd hok (by simp)
    simp only [Except.ok.injEq] at hok
    rw [createAppointment_availabilities]
    have ht : hasContainingBlock db r.doctorId r.startTime r.endTime = true := by
      cases h : hasContainingBlock db r.doctorId r.startTime r.endTime
      · exact absurd h hbool
      · rfl
    obtain ⟨blk, hmem, hdoc, hst, hen⟩ := (hasContainingBlock_iff db _ _ _).mp ht
    subst hok
    exact ⟨blk, hmem, hdoc, hst, hen⟩
  · intro a hok
    unfold rescheduleAppointment at hok
    rcases hfind : db.appointments.find? (fun x => x.id == id) with _ | appt <;>
      simp only [hfind] at hok
    · exact absurd hok (by simp)
    split at hok
    · exact absurd hok (by simp)
    next hbool =>
    split at hok
    · exact absurd hok (by simp)
    simp only [Except.ok.injEq] at hok
    rw [rescheduleAppointment_availabilities]
    have ht : hasContainingBlock db appt.doctorId s e = true := by
      cases h : hasContainingBlock db appt.doctorId s e
      · exact absurd h hbool
      · rfl
    obtain ⟨blk, hmem, hdoc, hst, hen⟩ := (hasContainingBlock_iff db _ _ _).mp ht
    subst hok
    exact ⟨blk, hmem, hdoc, hst, hen⟩
  · intro hb
    simp [createAppointment, hb]
  · intro appt hfind hb
    unfold rescheduleAppointment
    simp [hfind, hb]

/-- Witness for C3 at the concrete stores: the successful booking in
dbBooked is contained in a block, and a request outside all blocks fails
with NotAvailable leaving the store unchanged. -/
theorem containmentInvariant_witness :
    (∃ blk ∈ (createAppointment dbBlock
        { patientId := 2, doctorId := 1, startTime := 1000, endTime := 1100,
          notes := none }).2.availabilities,
      blk.doctorId = 1 ∧ blk.startTime ≤ 1000 ∧ (1100 : Int) ≤ blk.endTime) ∧
    createAppointment dbBlock
        { patientId := 2, doctorId := 1, startTime := 2000, endTime := 2100,
          notes := none } =
      (Except.error BookingError.NotAvailable, dbBlock) := by
  constructor
  · have h := (containmentInvariant dbBlock
      { patientId := 2, doctorId := 1, startTime := 1000, endTime := 1100,
        notes := none } 0 0 0).1
      { id := 0, patientId := 2, doctorId := 1, startTime := 1000, endTime := 1100,
        status := Status.confirmed, notes := none } (by decide)
    exact h
  · exact (containmentInvariant dbBlock
      { patientId := 2, doctorId := 1, startTime := 2000, endTime := 2100,
        notes := none } 0 0 0).2.2.1 (by decide)

/-- C5: createAppointment fails with NotAvailable exactly when no block of
the doctor contains the interval, with SlotConflict exactly when a block
exists but the (doctorId, startTime) uniqueness constraint is violated at
commit; a successful call returns the inserted row with status confirmed
and the request's fields; NotAvailable and SlotConflict map to the
distinguishable HTTP statuses 400 and 409. -/
theorem createAppointment_errorSemantics (db : DB) (r : InsertAppointment) :
    ((createAppointment db r).1 = Except.error BookingError.NotAvailable ↔
      hasContainingBlock db r.doctorId r.startTime r.endTime = false) ∧
    ((createAppointment db r).1 = Except.error BookingError.SlotConflict ↔
      (hasContainingBlock db r.doctorId r.startTime r.endTime = true ∧
        violatesUniqueBooking db r.doctorId r.startTime = true)) ∧
    (∀ a, (createAppointment db r).1 = Except.ok a →
      a.status = Status.confirmed ∧ a.patientId = r.patientId ∧
      a.doctorId = r.doctorId ∧ a.startTime = r.startTime ∧
      a.endTime = r.endTime ∧ a.notes = r.notes ∧
      a ∈ (createAppointment db r).2.appointments) ∧
    (httpStatusOf BookingError.NotAvailable = 400 ∧
     httpStatusOf BookingError.SlotConflict = 409 ∧
     httpStatusOf BookingError.NotAvailable ≠ httpStatusOf BookingError.SlotConflict) := by
  cases hb : hasContainingBlock db r.doctorId r.startTime r.endTime <;>
    cases hv : violatesUniqueBooking db r.doctorId r.startTime <;>
    simp [createAppointment, hb, hv, httpStatusOf, newApptRow]

/-- Witness for C5: a booking with no availability declared fails with
NotAvailable. -/
theorem createAppointment_errorSemantics_witness :
    (createAppointment initDB
        { patientId := 1, doctorId := 1, startTime := 0, endTime := 1,
          notes := none }).1 =
      Except.error BookingError.NotAvailable :=
  (createAppointment_errorSemantics initDB
    { patientId := 1, doctorId := 1, startTime := 0, endTime := 1,
      notes := none }).1.mpr (by decide)

/-- C7: a successful rescheduleAppointment returns the appointment with
the same id, the new startTime/endTime, status confirmed, and unchanged
patientId, doctorId and notes; when the id does not exist the operation
fails with NotFound and leaves the store unchanged. -/
theorem reschedulePreservesIdentity (db : DB) (id : Nat) (s e : Int) :
    (∀ appt, db.appointments.find? (fun x => x.id == id) = some appt →
      ∀ a, (rescheduleAppointment db id s e).1 = Except.ok a →
        a.id = appt.id ∧ a.id = id ∧ a.startTime = s ∧ a.endTime = e ∧
        a.status = Status.confirmed ∧ a.patientId = appt.patientId ∧
        a.doctorId = appt.doctorId ∧ a.notes = appt.notes) ∧
    (db.appointments.find? (fun x => x.id == id) = none →
      rescheduleAppointment db id s e = (Except.error BookingError.NotFound, db)) := by
  constructor
  · intro appt hfind a hok
    unfold rescheduleAppointment at hok
    simp only [hfind] at hok
    split at hok
    · exact absurd hok (by simp)
    split at hok
    · exact absurd hok (by simp)
    simp only [Except.ok.injEq] at hok
    have happt : appt.id = id := by simpa using List.find?_some hfind
    subst hok
    exact ⟨rfl, happt, rfl, rfl, rfl, rfl, rfl, rfl⟩
  · intro hfind
    unfold rescheduleAppointment
    simp [hfind]

/-- Witness for C7 at dbBooked: rescheduling appointment 0 to [1400, 1500]
keeps id, patient, doctor and notes and resets status to confirmed. -/
theorem reschedulePreservesIdentity_witness :
    ({ id := 0, patientId := 2, doctorId := 1, startTime := 1400, endTime := 1500,
       status := Status.confirmed, notes := none : Appointment }.id = 0 ∧
     { id := 0, patientId := 2, doctorId := 1, startTime := 1400, endTime := 1500,
       status := Status.confirmed, notes := none : Appointment }.patientId = 2) ∧
    rescheduleAppointment dbBooked 0 1400 1500 =
      (Except.ok { id := 0, patientId := 2, doctorId := 1, startTime := 1400,
                   endTime := 1500, status := Status.confirmed, notes := none },
       { availabilities := [{ id := 0, doctorId := 1, startTime := 900,
                              endTime := 1700, isBooked := false }],
         appointments := [{ id := 0, patientId := 2, doctorId := 1,
                            startTime := 1400, endTime := 1500,
                            status := Status.confirmed, notes := none }],
         nextAvailId := 1, nextApptId := 1 }) := by
  constructor
  · have h := (reschedulePreservesIdentity dbBooked 0 1400 1500).1
      { id := 0, patientId := 2, doctorId := 1, startTime := 1000, endTime := 1100,
        status := Status.confirmed, notes := none } (by decide)
      { id := 0, patientId := 2, doctorId := 1, startTime := 1400, endTime := 1500,
        status := Status.confirmed, notes := none } (by decide)
    exact ⟨h.2.1, h.2.2.2.2.2.1⟩
  · decide

/-- C6 counterexample: appointment 0 in dbBooked is owned by patient 2,
yet the reschedule route invoked by the unrelated patient 5 succeeds — it
does not fail with Forbidden, and the appointment is changed.  The route
checks only the caller's role, never ownership. -/
theorem rescheduleOwnership_counterexample :
    (dbBooked.appointments.find? (fun a => a.id == 0)).map (fun a => a.patientId) =
      some 2 ∧
    (rescheduleRoute dbBooked { id := 5, role := Role.patient } 0 1400 1500).1 =
      Except.ok { id := 0, patientId := 2, doctorId := 1, startTime := 1400,
                  endTime := 1500, status := Status.confirmed, notes := none } ∧
    (rescheduleRoute dbBooked { id := 5, role := Role.patient } 0 1400 1500).1 ≠
      Except.error BookingError.Forbidden ∧
    (rescheduleRoute dbBooked { id := 5, role := Role.patient } 0 1400 1500).2 ≠
      dbBooked := by
  decide

/-- C6 amended: the reschedule route enforces only the role precondition —
a caller whose role is not patient fails with Forbidden and the store is
unchanged, while a caller with the patient role reaches
rescheduleAppointment unconditionally, regardless of who owns the
appointment. -/
theorem rescheduleRoute_roleCheck (db : DB) (actor : Actor) (id : Nat) (s e : Int) :
    (actor.role ≠ Role.patient →
      rescheduleRoute db actor id s e = (Except.error BookingError.Forbidden, db)) ∧
    (actor.role = Role.patient →
      rescheduleRoute db actor id s e = rescheduleAppointment db id s e) := by
  constructor <;> intro h <;> simp [rescheduleRoute, h]

/-- Witness for C6 amended: a caller with the doctor role is rejected with
Forbidden and the store is unchanged. -/
theorem rescheduleRoute_roleCheck_witness :
    rescheduleRoute dbBooked { id := 1, role := Role.doctor } 0 1400 1500 =
      (Except.error BookingError.Forbidden, dbBooked) :=
  (rescheduleRoute_roleCheck dbBooked { id := 1, role := Role.doctor } 0 1400 1500).1
    (by decide)

/-- C8: a block is returned by getAvailability (listOpenSlots) exactly
when it belongs to the doctor, its endTime is at least the asOf instant,
and no confirmed appointment of that doctor has startTime equal to the
block's startTime; cancelled or completed appointments do not exclude a
block. -/
theorem getAvailability_spec (db : DB) (doctorId : Nat) (now : Int) (blk : Availability) :
    blk ∈ getAvailability db doctorId now ↔
      (blk ∈ db.availabilities ∧ blk.doctorId = doctorId ∧ now ≤ blk.endTime ∧
        ¬ ∃ a ∈ db.appointments, a.doctorId = doctorId ∧
            a.startTime = blk.startTime ∧ a.status = Status.confirmed) := by
  constructor
  · intro hmem
    obtain ⟨h1, hp⟩ := List.mem_filter.mp hmem
    simp only [Bool.and_eq_true, beq_iff_eq, decide_eq_true_eq,
      Bool.not_eq_true'] at hp
    obtain ⟨⟨hd, hn⟩, h3⟩ := hp
    subst hd
    refine ⟨h1, rfl, hn, ?_⟩
    rintro ⟨a, ha, hadoc, hast, hacf⟩
    have : db.appointments.any (fun a =>
        a.doctorId == blk.doctorId && a.startTime == blk.startTime &&
        a.status == Status.confirmed) = true := by
      refine List.any_eq_true.mpr ⟨a, ha, ?_⟩
      simp [hadoc, hast, hacf]
    rw [this] at h3
    exact absurd h3 (by simp)
  · rintro ⟨h1, hd, hn, hno⟩
    subst hd
    refine List.mem_filter.mpr ⟨h1, ?_⟩
    simp only [Bool.and_eq_true, beq_iff_eq, decide_eq_true_eq,
      Bool.not_eq_true']
    refine ⟨⟨by trivial, hn⟩, ?_⟩
    cases hany : db.appointments.any (fun a =>
        a.doctorId == blk.doctorId && a.startTime == blk.startTime &&
        a.status == Status.confirmed)
    · rfl
    · obtain ⟨a, ha, hpa⟩ := List.any_eq_true.mp hany
      simp only [Bool.and_eq_true, beq_iff_eq] at hpa
      exact absurd ⟨a, ha, hpa.1.1, hpa.1.2, hpa.2⟩ hno

/-- Witness for C8: in dbBooked the only block of doctor 1 is excluded
(the confirmed appointment sits at its startTime is false here — the block
starts at 900 while the appointment starts at 1000, so the block is
returned), evaluated concretely. -/
theorem getAvailability_spec_witness :
    { id := 0, doctorId := 1, startTime := 900, endTime := 1700,
      isBooked := false : Availability } ∈ getAvailability dbBooked 1 950 :=
  (getAvailability_spec dbBooked 1 950
    { id := 0, doctorId := 1, startTime := 900, endTime := 1700,
      isBooked := false }).mpr
    (by
      refine ⟨by decide, rfl, by decide, ?_⟩
      rintro ⟨a, ha, _, hast, _⟩
      have hl : dbBooked.appointments =
          [{ id := 0, patientId := 2, doctorId := 1, startTime := 1000,
             endTime := 1100, status := Status.confirmed, notes := none }] := by
        decide
      rw [hl] at ha
      rw [List.mem_singleton.mp ha] at hast
      exact absurd hast (by decide))

/-- C9 counterexample: with no availability declared (the empty store),
two identical concurrent create requests for (doctor 1, startTime 1000)
both fail with NotAvailable in every serialization order — neither
succeeds, and neither failure is SlotConflict — so the claim that exactly
one succeeds and the other fails with SlotConflict is false as stated. -/
theorem raceResolution_counterexample :
    (createAppointment initDB
        { patientId := 1, doctorId := 1, startTime := 1000, endTime := 1100,
          notes := none }).1 = Except.error BookingError.NotAvailable ∧
    (createAppointment (createAppointment initDB
        { patientId := 1, doctorId := 1, startTime := 1000, endTime := 1100,
          notes := none }).2
        { patientId := 1, doctorId := 1, startTime := 1000, endTime := 1100,
          notes := none }).1 = Except.error BookingError.NotAvailable ∧
    isOk (createAppointment initDB
        { patientId := 1, doctorId := 1, startTime := 1000, endTime := 1100,
          notes := none }).1 = false := by
  decide

/-- C9 amended: when some availability block of the doctor contains each
request's interval and no existing row occupies (doctorId, startTime),
then in either serialization order of two create requests with the same
(doctorId, startTime) exactly one succeeds with a created appointment and
the other fails with SlotConflict — the uniqueness constraint is the
race-breaker. -/
theorem raceResolution_amended (db : DB) (r1 r2 : InsertAppointment)
    (hdoc : r1.doctorId = r2.doctorId) (hstart : r1.startTime = r2.startTime)
    (h1 : hasContainingBlock db r1.doctorId r1.startTime r1.endTime = true)
    (h2 : hasContainingBlock db r2.doctorId r2.startTime r2.endTime = true)
    (hfree : violatesUniqueBooking db r1.doctorId r1.startTime = false) :
    ((createAppointment db r1).1 = Except.ok (newApptRow db r1) ∧
      (createAppointment (createAppointment db r1).2 r2).1 =
        Except.error BookingError.SlotConflict) ∧
    ((createAppointment db r2).1 = Except.ok (newApptRow db r2) ∧
      (createAppointment (createAppointment db r2).2 r1).1 =
        Except.error BookingError.SlotConflict) := by
  have hfree2 : violatesUniqueBooking db r2.doctorId r2.startTime = false := by
    rw [← hdoc, ← hstart]
    exact hfree
  have hblk1 : hasContainingBlock (createAppointment db r1).2
      r2.doctorId r2.startTime r2.endTime = true := by
    rw [hasContainingBlock_create]
    exact h2
  have hblk2 : hasContainingBlock (createAppointment db r2).2
      r1.doctorId r1.startTime r1.endTime = true := by
    rw [hasContainingBlock_create]
    exact h1
  have hconf1 : violatesUniqueBooking (createAppointment db r1).2
      r2.doctorId r2.startTime = true := by
    rw [createAppointment_ok db r1 h1 hfree]
    simp [violatesUniqueBooking, newApptRow, hdoc, hstart]
  have hconf2 : violatesUniqueBooking (createAppointment db r2).2
      r1.doctorId r1.startTime = true := by
    rw [createAppointment_ok db r2 h2 hfree2]
    simp [violatesUniqueBooking, newApptRow, hdoc, hstart]
  refine ⟨⟨?_, ?_⟩, ?_, ?_⟩
  · rw [createAppointment_ok db r1 h1 hfree]
  · rw [createAppointment_conflict _ r2 hblk1 hconf1]
  · rw [createAppointment_ok db r2 h2 hfree2]
  · rw [createAppointment_conflict _ r1 hblk2 hconf2]

/-- Witness for C9 amended: two concrete requests for doctor 1 at
startTime 1000 inside the block [900, 1700]; either order yields one
created appointment and one SlotConflict. -/
theorem raceResolution_amended_witness :
    ((createAppointment dbBlock
        { patientId := 1, doctorId := 1, startTime := 1000, endTime := 1100,
          notes := none }).1 =
      Except.ok (newApptRow dbBlock
        { patientId := 1, doctorId := 1, startTime := 1000, endTime := 1100,
          notes := none }) ∧
      (createAppointment (createAppointment dbBlock
          { patientId := 1, doctorId := 1, startTime := 1000, endTime := 1100,
            notes := none }).2
          { patientId := 4, doctorId := 1, startTime := 1000, endTime := 1200,
            notes := none }).1 = Except.error BookingError.SlotConflict) ∧
    ((createAppointment dbBlock
        { patientId := 4, doctorId := 1, startTime := 1000, endTime := 1200,
          notes := none }).1 =
      Except.ok (newApptRow dbBlock
        { patientId := 4, doctorId := 1, startTime := 1000, endTime := 1200,
          notes := none }) ∧
      (createAppointment (createAppointment dbBlock
          { patientId := 4, doctorId := 1, startTime := 1000, endTime := 1200,
            notes := none }).2
          { patientId := 1, doctorId := 1, startTime := 1000, endTime := 1100,
            notes := none }).1 = Except.error BookingError.SlotConflict) :=
  raceResolution_amended dbBlock
    { patientId := 1, doctorId := 1, startTime := 1000, endTime := 1100,
      notes := none }
    { patientId := 4, doctorId := 1, startTime := 1000, endTime := 1200,
      notes := none }
    (by decide) (by decide) (by decide) (by decide) (by decide)
